import Mathlib

/-!
Shallow embedding of the Phaneron FFmpeg producer core, from
`src/producer/ffmpegProducer.ts` and `src/producer/producer.ts`:
the producer registry with its ordered factory fallback, stream
discovery, the audio- and video-path configuration built by
`FFmpegProducer.initialise`, the `demux` generator loop, and the
`vidDeint` valve.  JavaScript runtime behaviour the code relies on
(falsiness tests on numbers, property access on `undefined`) is
embedded explicitly where it matters.
-/

namespace Phaneron

/-- A compressed packet as read from the demuxer: the originating
stream index and the presentation timestamp `pts`. -/
structure Packet where
  stream_index : Int
  pts : Int
deriving DecidableEq

/-- The data the `demux` generator closure captures from stream
discovery: the selected audio and video stream indexes and
`audioStreams.length + videoStreams.length`, the batch size the loop
compares against. -/
structure DemuxCfg where
  audioIndexes : List Int
  videoIndexes : List Int
  numSelected : Nat
deriving DecidableEq

/-- One leg of the timestamp bookkeeping in the `demux` loop.
JavaScript source: `if (!last) last = packet.pts; else if (packet.pts
!== last) doBreak = true`.  The `!last` test is a falsiness test, so a
recorded timestamp `0` is treated like an absent one: the new `pts`
overwrites it and no mismatch is signalled.  Returns the new recorded
timestamp and the `doBreak` flag. -/
def legUpdate (last : Option Int) (pts : Int) : Option Int × Bool :=
  match last with
  | none => (some pts, false)
  | some v => if v = 0 then (some pts, false) else (some v, decide (pts ≠ v))

/-- Result of one `demux` generator call: a batch of packets, or the
`end` marker. -/
inductive DemuxResult where
  | batch (packets : List Packet)
  | eos
deriving DecidableEq

/-- The read loop inside the `demux` generator.  One packet is read at
a time from the source (modelled as the list of remaining packets).
An audio- or video-selected packet updates its leg's recorded
timestamp via `legUpdate` and is pushed onto the accumulated batch;
the batch is returned as soon as `doBreak` is set or the accumulated
count equals `numSelected`.  Unselected packets are skipped.  An
exhausted source returns the `end` marker.  Returns the result and the
unread remainder of the source. -/
def demuxLoop (cfg : DemuxCfg) (la lv : Option Int) (acc : List Packet) :
    List Packet → DemuxResult × List Packet
  | [] => (DemuxResult.eos, [])
  | p :: rest =>
    if p.stream_index ∈ cfg.audioIndexes then
      if (legUpdate la p.pts).2 = true ∨ (acc ++ [p]).length = cfg.numSelected then
        (DemuxResult.batch (acc ++ [p]), rest)
      else demuxLoop cfg (legUpdate la p.pts).1 lv (acc ++ [p]) rest
    else if p.stream_index ∈ cfg.videoIndexes then
      if (legUpdate lv p.pts).2 = true ∨ (acc ++ [p]).length = cfg.numSelected then
        (DemuxResult.batch (acc ++ [p]), rest)
      else demuxLoop cfg la (legUpdate lv p.pts).1 (acc ++ [p]) rest
    else
      if acc.length = cfg.numSelected then (DemuxResult.batch acc, rest)
      else demuxLoop cfg la lv acc rest

/-- The mutable flags of an `FFmpegProducer` instance. -/
structure ProducerState where
  running : Bool
  paused : Bool
  hasDemuxer : Bool
deriving DecidableEq

/-- `FFmpegProducer.release`: sets the running flag false and nothing
else. -/
def release (s : ProducerState) : ProducerState :=
  { s with running := false }

/-- `FFmpegProducer.setPaused`. -/
def setPaused (s : ProducerState) (pause : Bool) : ProducerState :=
  { s with paused := pause }

/-- One call of the `demux` generator: if the producer still has a
demuxer and is running, run the read loop from a fresh local state
(`lastAudTimestamp`/`lastVidTimestamp` start `undefined`, `packets`
empty); otherwise null out the demuxer and return the `end` marker. -/
def demuxRead (s : ProducerState) (cfg : DemuxCfg) (src : List Packet) :
    DemuxResult × List Packet × ProducerState :=
  if s.hasDemuxer = true ∧ s.running = true then
    ((demuxLoop cfg none none [] src).1, (demuxLoop cfg none none [] src).2, s)
  else (DemuxResult.eos, src, { s with hasDemuxer := false })

/-- Outcome of one factory trial inside `ProducerRegistry.createSource`:
`createProducer` followed by `initialise` either succeeds, throws an
`InvalidProducerError` (source not recognised by this factory), or
throws any other error (fatal). -/
inductive FactoryOutcome (α : Type) where
  | ok (producer : α)
  | invalid (msg : String)
  | fatal (msg : String)
deriving DecidableEq

/-- Return value of `ProducerRegistry.createSource`: a producer, or
`null` together with the last recorded failure message
(`producerErr`). -/
inductive CreateResult (α : Type) where
  | created (producer : α)
  | noProducer (lastErr : String)
deriving DecidableEq

/-- The loop of `ProducerRegistry.createSource` with the `producerErr`
accumulator.  Success returns the producer immediately; an
`InvalidProducerError` records its message and moves to the next
factory; any other error is rethrown (`Except.error`); an exhausted
factory list returns `null` carrying the last recorded message. -/
def createSourceAux {α : Type} (err : String) :
    List (FactoryOutcome α) → Except String (CreateResult α)
  | [] => Except.ok (CreateResult.noProducer err)
  | FactoryOutcome.ok p :: _ => Except.ok (CreateResult.created p)
  | FactoryOutcome.invalid m :: fs => createSourceAux m fs
  | FactoryOutcome.fatal m :: _ => Except.error m

/-- `ProducerRegistry.createSource` over the registered factory list,
starting with an empty `producerErr`. -/
def createSource {α : Type} (fs : List (FactoryOutcome α)) :
    Except String (CreateResult α) :=
  createSourceAux "" fs

/-- A stream as exposed by the demuxer: the fields of
`beamcoder.Stream`/`codecpar` that `initialise` reads.  `format` is
the sample format for an audio stream and the pixel format for a
video stream (the same `codecpar.format` field serves both). -/
structure StreamInfo where
  index : Int
  codecType : String
  channel_layout : String
  sample_rate : Int
  format : String
  width : Nat
  height : Nat
  time_base : Int × Int
deriving DecidableEq

/-- The arrays and maps built by the stream-discovery `forEach` in
`initialise`.  `decoderKeys` records the keys passed to
`decoders.set`, in order; `discards` records the `discard` value
assigned to each stream, in stream order. -/
structure DiscoveryState where
  audioStreams : List StreamInfo
  videoStreams : List StreamInfo
  audioIndexes : List Int
  videoIndexes : List Int
  decoderKeys : List Int
  discards : List (Int × String)
deriving DecidableEq

/-- `numAudChannels` in `initialise`: the audio stream cap. -/
def numAudChannels : Nat := 8

/-- `numVidChannels` in `initialise`: the video stream cap. -/
def numVidChannels : Nat := 1

/-- The body of the stream-discovery `forEach`: an audio stream under
the cap and a video stream under the cap are selected (pushed,
indexed, given a decoder, `discard = 'default'`); every other stream
gets `discard = 'all'`. -/
def discoverStep (st : DiscoveryState) (s : StreamInfo) : DiscoveryState :=
  if s.codecType = "audio" ∧ st.audioStreams.length < numAudChannels then
    { st with
      audioStreams := st.audioStreams ++ [s]
      audioIndexes := st.audioIndexes ++ [s.index]
      decoderKeys := st.decoderKeys ++ [s.index]
      discards := st.discards ++ [(s.index, "default")] }
  else if s.codecType = "video" ∧ st.videoStreams.length < numVidChannels then
    { st with
      videoStreams := st.videoStreams ++ [s]
      videoIndexes := st.videoIndexes ++ [s.index]
      decoderKeys := st.decoderKeys ++ [s.index]
      discards := st.discards ++ [(s.index, "default")] }
  else
    { st with discards := st.discards ++ [(s.index, "all")] }

/-- The empty discovery state the `forEach` starts from. -/
def emptyDiscovery : DiscoveryState :=
  { audioStreams := [], videoStreams := [], audioIndexes := [],
    videoIndexes := [], decoderKeys := [], discards := [] }

/-- Stream discovery over `demuxer.streams`. -/
def discover (streams : List StreamInfo) : DiscoveryState :=
  streams.foldl discoverStep emptyDiscovery

/-- `audLayout` in `initialise`: the template string
`${numAudChannels}c`, i.e. `"8c"`. -/
def audLayout : String := toString numAudChannels ++ "c"

/-- `audChanNames` in `initialise`: the default speaker positions
assigned to mono input streams. -/
def audChanNames : List String :=
  ["FL", "FR", "FC", "SL", "SR", "LFE", "BL", "BR"]

/-- One element of the `inputParams` array passed to the audio
`filterer`. -/
structure AudInputParam where
  name : String
  timeBase : Int × Int
  sampleRate : Int
  sampleFormat : String
  channelLayout : String
deriving DecidableEq

/-- The model of the silent `frame({...})` built when no audio stream
exists; `dataBytes` is the size of the allocated buffer. -/
structure FrameSpec where
  nb_samples : Nat
  format : String
  pts : Int
  sample_rate : Nat
  channels : Nat
  channel_layout : String
  dataBytes : Nat
deriving DecidableEq

/-- The silent frame template: 1024 samples, `s32`, 48000 Hz, 8
channels, layout `8c`, a zero buffer of `1024 * 8 * 4` bytes. -/
def silentFrameSpec : FrameSpec :=
  { nb_samples := 1024, format := "s32", pts := 0, sample_rate := 48000,
    channels := numAudChannels, channel_layout := audLayout,
    dataBytes := 1024 * numAudChannels * 4 }

/-- The `audioStreams.map((_s, i) => ...)` that builds the audio
filterer input parameters, starting at index `i`.  Every parameter
takes its time base, sample rate and sample format from the first
audio stream `astr`; the channel layout is the `i`-th default speaker
name when every stream is mono (an out-of-range JavaScript array read
yields `undefined`, embedded as the default `"undefined"`), and the
first stream's layout otherwise. -/
def mkInParamsAux (astr : StreamInfo) (allMono : Bool) :
    Nat → List StreamInfo → List AudInputParam
  | _, [] => []
  | i, _s :: rest =>
    { name := "in" ++ toString i ++ ":a",
      timeBase := astr.time_base,
      sampleRate := astr.sample_rate,
      sampleFormat := astr.format,
      channelLayout :=
        if allMono then audChanNames.getD i "undefined" else astr.channel_layout } ::
      mkInParamsAux astr allMono (i + 1) rest

/-- The `inStr` accumulated alongside the map: `"[in0:a][in1:a]..."`
for `n` inputs starting at index `i`. -/
def mkInStr : Nat → Nat → String
  | _, 0 => ""
  | i, n + 1 => "[in" ++ toString i ++ ":a]" ++ mkInStr (i + 1) n

/-- `audioStreams.every((s) => s.codecpar.channel_layout === 'mono')`. -/
def allMonoOf (audioStreams : List StreamInfo) : Bool :=
  audioStreams.all fun s => decide (s.channel_layout = "mono")

/-- The audio filter graph configuration built by `initialise`:
either the real-stream merge graph or the silent pass-through graph. -/
structure AudioPathCfg where
  silentFrame : Option FrameSpec
  inputParams : List AudInputParam
  outName : String
  outSampleRate : Nat
  outSampleFormat : String
  outChannelLayout : String
  filterSpec : String
deriving DecidableEq

/-- The audio-path construction in `initialise`.  With at least one
audio stream: input parameters from the map over `audioStreams`, one
output at 48000 Hz `s32` with layout `8c`, and the
`amerge`/`asetnsamples` filter spec.  With no audio stream: the silent
frame template and the `asetpts` pass-through graph over one `8c`
input. -/
def buildAudioPath (audioStreams : List StreamInfo) : AudioPathCfg :=
  match audioStreams with
  | [] =>
    { silentFrame := some silentFrameSpec,
      inputParams := [{ name := "in0:a", timeBase := (1, 48000), sampleRate := 48000,
                        sampleFormat := "s32", channelLayout := audLayout }],
      outName := "out0:a", outSampleRate := 48000, outSampleFormat := "s32",
      outChannelLayout := audLayout,
      filterSpec := "[in0:a] asetpts=N/SR/TB [out0:a]" }
  | a :: _ =>
    { silentFrame := none,
      inputParams := mkInParamsAux a (allMonoOf audioStreams) 0 audioStreams,
      outName := "out0:a", outSampleRate := 48000, outSampleFormat := "s32",
      outChannelLayout := audLayout,
      filterSpec := mkInStr 0 audioStreams.length ++ " amerge=inputs="
        ++ toString audioStreams.length ++ ", asetnsamples=n=1024:p=1 [out0:a]" }

/-- One item of the `silence` generator's output: a named audio
channel holding frames. -/
structure AudioChannelBatch where
  name : String
  frames : List FrameSpec
deriving DecidableEq

/-- The `silence` generator from `initialise`:
`async () => [{ name: 'in0:a', frames: [silentFrame] }]`.  It captures
the silent frame and ignores the producer state - in particular it
does not consult the running flag. -/
def silence (_s : ProducerState) (silentFrame : FrameSpec) :
    List AudioChannelBatch :=
  [{ name := "in0:a", frames := [silentFrame] }]

/-- Does `pat` start the character list `hay`? -/
def startsWithList : List Char → List Char → Bool
  | _, [] => true
  | [], _ :: _ => false
  | h :: hs, p :: ps => decide (h = p) && startsWithList hs ps

/-- Does `pat` occur contiguously inside `hay`?  Recursion over
`hay`. -/
def hasSub (pat : List Char) : List Char → Bool
  | [] => pat.isEmpty
  | c :: rest => startsWithList (c :: rest) pat || hasSub pat rest

/-- JavaScript `s.includes(pat)` for strings. -/
def strIncludes (s pat : String) : Bool :=
  hasSub pat.toList s.toList

/-- The five zero-copy GPU readers the video path can select. -/
inductive VidReader where
  | yuv422p8
  | yuv422p10
  | v210
  | rgba8
  | bgra8
deriving DecidableEq

/-- The video-path choice made by the pixel-format `switch`: the
reader behind the `ToRGBA` converter, the `filterOutputFormat` handed
to the video filter graph, and the stream dimensions. -/
structure VideoPathCfg where
  reader : VidReader
  filterOutputFormat : String
  width : Nat
  height : Nat
deriving DecidableEq

/-- The message of the `Unsupported video format` error thrown by the
`default` branch of the pixel-format `switch`. -/
def unsupportedMsg (fmt : String) : String :=
  "Unsupported video format " ++ fmt ++ " from FFmpeg decoder"

/-- The five natively supported pixel formats, matched by the `case`
labels of the `switch`. -/
def nativeFormats : List String :=
  ["yuv422p", "yuv422p10le", "v210", "rgba", "bgra"]

/-- The pixel-format `switch` in `initialise`.  A native format keeps
`filterOutputFormat` unchanged and selects the matching reader; a
non-native format containing `yuv` forces `yuv422p10le` with the
yuv422p10 reader; one containing `rgb` forces `rgba` with the rgba8
reader; anything else throws the unsupported-format error. -/
def selectReader (fmt : String) (w h : Nat) : Except String VideoPathCfg :=
  if fmt = "yuv422p" then Except.ok ⟨VidReader.yuv422p8, fmt, w, h⟩
  else if fmt = "yuv422p10le" then Except.ok ⟨VidReader.yuv422p10, fmt, w, h⟩
  else if fmt = "v210" then Except.ok ⟨VidReader.v210, fmt, w, h⟩
  else if fmt = "rgba" then Except.ok ⟨VidReader.rgba8, fmt, w, h⟩
  else if fmt = "bgra" then Except.ok ⟨VidReader.bgra8, fmt, w, h⟩
  else if strIncludes fmt "yuv" then
    Except.ok ⟨VidReader.yuv422p10, "yuv422p10le", w, h⟩
  else if strIncludes fmt "rgb" then
    Except.ok ⟨VidReader.rgba8, "rgba", w, h⟩
  else Except.error (unsupportedMsg fmt)

/-- The errors `initialise` can throw: `InvalidProducerError` (thrown
only when the demuxer fails to open) or any other error (fatal at the
registry). -/
inductive ProdError where
  | invalidProducer (msg : String)
  | fatal (msg : String)
deriving DecidableEq

/-- The `TypeError` raised by the JavaScript runtime when
`videoStreams[0]` is `undefined` and `vidStream.codecpar` is read from
it. -/
def typeErrorMsg : String :=
  "TypeError: Cannot read property codecpar of undefined"

/-- The video-path part of `initialise`:
`const vidStream = videoStreams[0]` followed by field reads.  With no
selected video stream, `videoStreams[0]` is `undefined` in JavaScript
and the `vidStream.codecpar.width` access throws a `TypeError`, which
is not an `InvalidProducerError`; otherwise the pixel-format `switch`
runs, whose `default`-branch `Error` is again not an
`InvalidProducerError`. -/
def buildVideoPath (videoStreams : List StreamInfo) :
    Except ProdError VideoPathCfg :=
  match videoStreams with
  | [] => Except.error (ProdError.fatal typeErrorMsg)
  | v :: _ =>
    match selectReader v.format v.width v.height with
    | Except.ok cfg => Except.ok cfg
    | Except.error m => Except.error (ProdError.fatal m)

/-- The source as `initialise` sees it: whether `demuxer(url)`
resolves, and the streams it then exposes. -/
structure SourceModel where
  openOk : Bool
  streams : List StreamInfo
deriving DecidableEq

/-- Everything `initialise` wires up on success. -/
structure ProducerCfg where
  discovery : DiscoveryState
  audioPath : AudioPathCfg
  videoPath : VideoPathCfg
  demuxCfg : DemuxCfg
deriving DecidableEq

/-- `FFmpegProducer.initialise`: a failed demuxer open throws
`InvalidProducerError`; then stream discovery, the audio path and the
video path run in order, and the demux configuration captures the
selected indexes and the expected batch size. -/
def initialise (src : SourceModel) : Except ProdError ProducerCfg :=
  if src.openOk = true then
    match buildVideoPath (discover src.streams).videoStreams with
    | Except.error e => Except.error e
    | Except.ok vp =>
      Except.ok
        { discovery := discover src.streams,
          audioPath := buildAudioPath (discover src.streams).audioStreams,
          videoPath := vp,
          demuxCfg :=
            { audioIndexes := (discover src.streams).audioIndexes,
              videoIndexes := (discover src.streams).videoIndexes,
              numSelected := (discover src.streams).audioStreams.length
                + (discover src.streams).videoStreams.length } }
  else Except.error (ProdError.invalidProducer "demuxer open failed")

/-- The `FFmpegProducerFactory` trial as the registry loop sees it:
`initialise` classified into the three factory outcomes. -/
def ffmpegFactoryOutcome (src : SourceModel) : FactoryOutcome ProducerCfg :=
  match initialise src with
  | Except.ok cfg => FactoryOutcome.ok cfg
  | Except.error (ProdError.invalidProducer m) => FactoryOutcome.invalid m
  | Except.error (ProdError.fatal m) => FactoryOutcome.fatal m

/-- A GPU buffer: the only field the deinterlace valve reads is the
timestamp. -/
structure CLBuf where
  timestamp : Int
deriving DecidableEq

/-- What one invocation of the `vidDeint` valve does. -/
structure DeintStep where
  forwarded : List CLBuf
  inputReleased : Bool
  yadifReleased : Bool
  endForwarded : Bool
deriving DecidableEq

/-- The `vidDeint` valve.  `yadifDests` is the list of buffers the
deinterlacer appended for this input (its contract appends zero, one
or two).  On a value the valve releases the input buffer and returns
`yadifDests` when `yadifDests.length > 1`, and `nil` (no output)
otherwise; on the `end` marker it releases the yadif state and
forwards the marker. -/
def vidDeint (yadifDests : List CLBuf) : Option CLBuf → DeintStep
  | some _ =>
    { forwarded := if yadifDests.length > 1 then yadifDests else [],
      inputReleased := true, yadifReleased := false, endForwarded := false }
  | none =>
    { forwarded := [], inputReleased := false, yadifReleased := true,
      endForwarded := true }

/-- Reading (a) of the spec sentence behind claim C2, following its
words: the batch contains one packet per every selected stream. -/
def onePerStream (cfg : DemuxCfg) (b : List Packet) : Prop :=
  ∀ i ∈ cfg.audioIndexes ++ cfg.videoIndexes,
    (b.filter fun p => decide (p.stream_index = i)).length = 1

/-- Reading (b) of the spec sentence behind claim C2, following its
words: a mismatch between the batch's audio timestamps and its video
timestamps. -/
def crossLegMismatch (cfg : DemuxCfg) (b : List Packet) : Prop :=
  ∃ pa ∈ b, ∃ pv ∈ b,
    pa.stream_index ∈ cfg.audioIndexes ∧ pv.stream_index ∈ cfg.videoIndexes ∧
      pa.pts ≠ pv.pts

/-- The timestamps of the audio-leg packets of a batch (the packets
the audio branch of the demux loop accepted). -/
def audPtsOf (cfg : DemuxCfg) (ps : List Packet) : List Int :=
  (ps.filter fun p => decide (p.stream_index ∈ cfg.audioIndexes)).map Packet.pts

/-- The timestamps of the video-leg packets of a batch (the packets
the video branch of the demux loop accepted; the audio branch has
priority, mirroring the `else if`). -/
def vidPtsOf (cfg : DemuxCfg) (ps : List Packet) : List Int :=
  (ps.filter fun p =>
    !decide (p.stream_index ∈ cfg.audioIndexes)
      && decide (p.stream_index ∈ cfg.videoIndexes)).map Packet.pts

/-- The recorded timestamp of one leg after folding `legUpdate` over
the timestamps the leg has seen. -/
def runTs (vs : List Int) : Option Int :=
  vs.foldl (fun t v => (legUpdate t v).1) none

/-- `p` sets `doBreak` when it arrives after the packets of `front`:
its timestamp differs from the recorded nonzero timestamp of its own
leg. -/
def brokeAt (cfg : DemuxCfg) (front : List Packet) (p : Packet) : Prop :=
  (p.stream_index ∈ cfg.audioIndexes ∧
      (legUpdate (runTs (audPtsOf cfg front)) p.pts).2 = true) ∨
  (p.stream_index ∉ cfg.audioIndexes ∧ p.stream_index ∈ cfg.videoIndexes ∧
      (legUpdate (runTs (vidPtsOf cfg front)) p.pts).2 = true)

lemma runTs_append (vs : List Int) (v : Int) :
    runTs (vs ++ [v]) = (legUpdate (runTs vs) v).1 := by
  simp [runTs, List.foldl_append]

lemma audPtsOf_append_aud (cfg : DemuxCfg) (acc : List Packet) (p : Packet)
    (h : p.stream_index ∈ cfg.audioIndexes) :
    audPtsOf cfg (acc ++ [p]) = audPtsOf cfg acc ++ [p.pts] := by
  simp [audPtsOf, List.filter_append, h]

lemma vidPtsOf_append_aud (cfg : DemuxCfg) (acc : List Packet) (p : Packet)
    (h : p.stream_index ∈ cfg.audioIndexes) :
    vidPtsOf cfg (acc ++ [p]) = vidPtsOf cfg acc := by
  simp [vidPtsOf, List.filter_append, h]

lemma audPtsOf_append_nonaud (cfg : DemuxCfg) (acc : List Packet) (p : Packet)
    (h : p.stream_index ∉ cfg.audioIndexes) :
    audPtsOf cfg (acc ++ [p]) = audPtsOf cfg acc := by
  simp [audPtsOf, List.filter_append, h]

lemma vidPtsOf_append_vid (cfg : DemuxCfg) (acc : List Packet) (p : Packet)
    (ha : p.stream_index ∉ cfg.audioIndexes)
    (hv : p.stream_index ∈ cfg.videoIndexes) :
    vidPtsOf cfg (acc ++ [p]) = vidPtsOf cfg acc ++ [p.pts] := by
  simp [vidPtsOf, List.filter_append, ha, hv]

lemma vidPtsOf_append_nonsel (cfg : DemuxCfg) (acc : List Packet) (p : Packet)
    (hv : p.stream_index ∉ cfg.videoIndexes) :
    vidPtsOf cfg (acc ++ [p]) = vidPtsOf cfg acc := by
  simp [vidPtsOf, List.filter_append, hv]

/-- Invariant proof behind claim C2: a batch returned by the demux
loop either has the full expected size, or ends with the packet that
set `doBreak`, whose timestamp differs from the recorded nonzero
running timestamp of its own leg. -/
lemma demuxLoop_batch_inv (cfg : DemuxCfg) :
    ∀ (src : List Packet) (la lv : Option Int) (acc B rest : List Packet),
      la = runTs (audPtsOf cfg acc) → lv = runTs (vidPtsOf cfg acc) →
      demuxLoop cfg la lv acc src = (DemuxResult.batch B, rest) →
      B.length = cfg.numSelected ∨
        ∃ front p, B = front ++ [p] ∧ brokeAt cfg front p := by
  intro src
  induction src with
  | nil =>
    intro la lv acc B rest _ _ h
    simp [demuxLoop] at h
  | cons p ps ih =>
    intro la lv acc B rest hla hlv h
    simp only [demuxLoop] at h
    by_cases hpa : p.stream_index ∈ cfg.audioIndexes
    · rw [if_pos hpa] at h
      by_cases hemit :
          (legUpdate la p.pts).2 = true ∨ (acc ++ [p]).length = cfg.numSelected
      · rw [if_pos hemit] at h
        injection h with h1 h2
        injection h1 with h1
        rcases hemit with hbrk | hlen
        · right
          refine ⟨acc, p, h1.symm, Or.inl ⟨hpa, ?_⟩⟩
          rw [← hla]
          exact hbrk
        · left
          rw [← h1]
          exact hlen
      · rw [if_neg hemit] at h
        refine ih _ _ _ _ _ ?_ ?_ h
        · rw [audPtsOf_append_aud cfg acc p hpa, runTs_append, ← hla]
        · rw [vidPtsOf_append_aud cfg acc p hpa, ← hlv]
    · rw [if_neg hpa] at h
      by_cases hpv : p.stream_index ∈ cfg.videoIndexes
      · rw [if_pos hpv] at h
        by_cases hemit :
            (legUpdate lv p.pts).2 = true ∨ (acc ++ [p]).length = cfg.numSelected
        · rw [if_pos hemit] at h
          injection h with h1 h2
          injection h1 with h1
          rcases hemit with hbrk | hlen
          · right
            refine ⟨acc, p, h1.symm, Or.inr ⟨hpa, hpv, ?_⟩⟩
            rw [← hlv]
            exact hbrk
          · left
            rw [← h1]
            exact hlen
        · rw [if_neg hemit] at h
          refine ih _ _ _ _ _ ?_ ?_ h
          · rw [audPtsOf_append_nonaud cfg acc p hpa, ← hla]
          · rw [vidPtsOf_append_vid cfg acc p hpa hpv, runTs_append, ← hlv]
      · rw [if_neg hpv] at h
        by_cases hemit : acc.length = cfg.numSelected
        · rw [if_pos hemit] at h
          injection h with h1 h2
          injection h1 with h1
          left
          rw [← h1]
          exact hemit
        · rw [if_neg hemit] at h
          exact ih _ _ _ _ _ hla hlv h

/-- Claim C2 (amended): the demux stage accumulates selected packets
into a batch; every emitted batch either has length equal to the
number of selected streams (a count test, which need not cover every
selected stream) or ends with a packet whose timestamp differs from
the previously recorded nonzero running timestamp of its own leg (the
mismatch is within a leg, not between the audio and video legs); a
packet meeting either condition causes immediate emission; and an
exhausted source yields the terminal end-of-stream marker instead of
a batch. -/
theorem demux_batch_flush_policy :
    (∀ (cfg : DemuxCfg) (src B rest : List Packet),
        demuxLoop cfg none none [] src = (DemuxResult.batch B, rest) →
        B.length = cfg.numSelected ∨
          ∃ front p, B = front ++ [p] ∧ brokeAt cfg front p) ∧
    (∀ (cfg : DemuxCfg) (la lv : Option Int) (acc : List Packet),
        demuxLoop cfg la lv acc [] = (DemuxResult.eos, [])) ∧
    (∀ (cfg : DemuxCfg) (la lv : Option Int) (acc : List Packet) (p : Packet)
        (rest : List Packet),
        p.stream_index ∈ cfg.audioIndexes →
        ((legUpdate la p.pts).2 = true ∨ (acc ++ [p]).length = cfg.numSelected) →
        demuxLoop cfg la lv acc (p :: rest) =
          (DemuxResult.batch (acc ++ [p]), rest)) ∧
    (∀ (cfg : DemuxCfg) (la lv : Option Int) (acc : List Packet) (p : Packet)
        (rest : List Packet),
        p.stream_index ∉ cfg.audioIndexes → p.stream_index ∈ cfg.videoIndexes →
        ((legUpdate lv p.pts).2 = true ∨ (acc ++ [p]).length = cfg.numSelected) →
        demuxLoop cfg la lv acc (p :: rest) =
          (DemuxResult.batch (acc ++ [p]), rest)) := by
  refine ⟨?_, ?_, ?_, ?_⟩
  · intro cfg src B rest h
    exact demuxLoop_batch_inv cfg src none none [] B rest
      (by simp [audPtsOf, runTs]) (by simp [vidPtsOf, runTs]) h
  · intro cfg la lv acc
    simp [demuxLoop]
  · intro cfg la lv acc p rest hpa hemit
    simp only [demuxLoop]
    rw [if_pos hpa, if_pos hemit]
  · intro cfg la lv acc p rest hpa hpv hemit
    simp only [demuxLoop]
    rw [if_neg hpa, if_pos hpv, if_pos hemit]

/-- Counterexample to claim C2 as stated: with selected audio streams
`{0, 1}` and video stream `{2}`, three packets of stream 0 carrying
the same timestamp fill the batch to the expected count, and the
batch is emitted although it does not contain one packet per selected
stream and no audio/video timestamp mismatch exists in it. -/
theorem demux_batch_flush_cex :
    demuxLoop ⟨[0, 1], [2], 3⟩ none none []
        [⟨0, 5⟩, ⟨0, 5⟩, ⟨0, 5⟩] =
      (DemuxResult.batch [⟨0, 5⟩, ⟨0, 5⟩, ⟨0, 5⟩], []) ∧
    ¬ onePerStream ⟨[0, 1], [2], 3⟩ [⟨0, 5⟩, ⟨0, 5⟩, ⟨0, 5⟩] ∧
    ¬ crossLegMismatch ⟨[0, 1], [2], 3⟩ [⟨0, 5⟩, ⟨0, 5⟩, ⟨0, 5⟩] := by
  refine ⟨by decide, ?_, ?_⟩
  · simp only [onePerStream]
    decide
  · simp only [crossLegMismatch]
    decide

/-- Witness for `demux_batch_flush_policy` at concrete inputs: a
two-stream source whose complete batch is emitted, and an immediate
flush on a video-leg mismatch. -/
theorem demux_batch_flush_policy_witness :
    (([⟨0, 1⟩, ⟨1, 2⟩] : List Packet).length =
        (⟨[0], [1], 2⟩ : DemuxCfg).numSelected ∨
      ∃ front p, ([⟨0, 1⟩, ⟨1, 2⟩] : List Packet) = front ++ [p] ∧
        brokeAt ⟨[0], [1], 2⟩ front p) ∧
    demuxLoop ⟨[0], [1], 3⟩ none (some 7) [⟨0, 7⟩] [⟨1, 9⟩, ⟨2, 3⟩] =
      (DemuxResult.batch ([⟨0, 7⟩] ++ [⟨1, 9⟩]), [⟨2, 3⟩]) := by
  constructor
  · exact demux_batch_flush_policy.1 ⟨[0], [1], 2⟩ [⟨0, 1⟩, ⟨1, 2⟩]
      [⟨0, 1⟩, ⟨1, 2⟩] [] (by decide)
  · exact demux_batch_flush_policy.2.2.2 ⟨[0], [1], 3⟩ none (some 7) [⟨0, 7⟩]
      ⟨1, 9⟩ [⟨2, 3⟩] (by decide) (by decide) (by decide)

/-- Claim C10: the `!lastAudTimestamp` check in the demux loop is a
falsiness test, so a recorded timestamp 0 behaves like an absent one:
when the first audio packet of a batch has timestamp 0, the next
audio packet overwrites the recorded timestamp and never sets
`doBreak`, whereas a nonzero first timestamp folled by a different
one flushes the partial batch immediately. -/
theorem demux_zero_timestamp_falsiness (cfg : DemuxCfg) (p0 p1 : Packet)
    (rest : List Packet) (h0 : p0.stream_index ∈ cfg.audioIndexes)
    (h1 : p1.stream_index ∈ cfg.audioIndexes) (hn : 2 < cfg.numSelected) :
    (p0.pts = 0 →
      demuxLoop cfg none none [] (p0 :: p1 :: rest) =
        demuxLoop cfg (some p1.pts) none [p0, p1] rest) ∧
    (p0.pts ≠ 0 → p1.pts ≠ p0.pts →
      demuxLoop cfg none none [] (p0 :: p1 :: rest) =
        (DemuxResult.batch [p0, p1], rest)) := by
  have e0 : legUpdate none p0.pts = (some p0.pts, false) := by
    simp [legUpdate]
  have c1 : ¬ ((legUpdate none p0.pts).2 = true ∨
      (([] : List Packet) ++ [p0]).length = cfg.numSelected) := by
    rw [e0]
    simp only [List.nil_append, List.length_singleton]
    push_neg
    exact ⟨Bool.false_ne_true, by omega⟩
  constructor
  · intro hpts
    have e1 : legUpdate (some p0.pts) p1.pts = (some p1.pts, false) := by
      simp [legUpdate, hpts]
    have c2 : ¬ ((legUpdate (some p0.pts) p1.pts).2 = true ∨
        (([] : List Packet) ++ [p0] ++ [p1]).length = cfg.numSelected) := by
      rw [e1]
      simp only [List.nil_append, List.length_append, List.length_singleton]
      push_neg
      exact ⟨Bool.false_ne_true, by omega⟩
    have e0f : (legUpdate none p0.pts).1 = some p0.pts := rfl
    simp only [demuxLoop]
    rw [if_pos h0, if_neg c1, if_pos h1, e0f, if_neg c2, e1]
    try simp
  · intro hpts hne
    have e1 : legUpdate (some p0.pts) p1.pts = (some p0.pts, true) := by
      simp [legUpdate, hpts, hne]
    have c2 : (legUpdate (some p0.pts) p1.pts).2 = true ∨
        (([] : List Packet) ++ [p0] ++ [p1]).length = cfg.numSelected := by
      rw [e1]
      exact Or.inl rfl
    have e0f : (legUpdate none p0.pts).1 = some p0.pts := rfl
    simp only [demuxLoop]
    rw [if_pos h0, if_neg c1, if_pos h1, e0f, if_pos c2]
    try simp

/-- Witness for `demux_zero_timestamp_falsiness`: with audio streams
`{0, 1}` in a three-stream source, a zero first timestamp is
overwritten by the next audio packet without a flush, while a nonzero
mismatching pair flushes at once. -/
theorem demux_zero_timestamp_falsiness_witness :
    demuxLoop ⟨[0, 1], [2], 3⟩ none none [] [⟨0, 0⟩, ⟨1, 42⟩] =
      demuxLoop ⟨[0, 1], [2], 3⟩ (some 42) none [⟨0, 0⟩, ⟨1, 42⟩] [] ∧
    demuxLoop ⟨[0, 1], [2], 3⟩ none none [] [⟨0, 5⟩, ⟨1, 7⟩] =
      (DemuxResult.batch [⟨0, 5⟩, ⟨1, 7⟩], []) := by
  constructor
  · exact (demux_zero_timestamp_falsiness ⟨[0, 1], [2], 3⟩ ⟨0, 0⟩ ⟨1, 42⟩ []
      (by decide) (by decide) (by decide)).1 rfl
  · exact (demux_zero_timestamp_falsiness ⟨[0, 1], [2], 3⟩ ⟨0, 5⟩ ⟨1, 7⟩ []
      (by decide) (by decide) (by decide)).2 (by decide) (by decide)

lemma createSourceAux_skip {α : Type} :
    ∀ (pre : List (FactoryOutcome α)),
      (∀ f ∈ pre, ∃ m, f = FactoryOutcome.invalid m) →
      ∀ (err : String) (fs : List (FactoryOutcome α)),
        ∃ err2, createSourceAux err (pre ++ fs) = createSourceAux err2 fs := by
  intro pre
  induction pre with
  | nil =>
    intro _ err fs
    exact ⟨err, rfl⟩
  | cons f pre ih =>
    intro h err fs
    obtain ⟨m, rfl⟩ := h f (List.mem_cons_self f pre)
    obtain ⟨err2, h2⟩ := ih (fun g hg => h g (List.mem_cons_of_mem _ hg)) m fs
    exact ⟨err2, by simpa [createSourceAux] using h2⟩

lemma createSourceAux_all_invalid {α : Type} :
    ∀ (fs : List (FactoryOutcome α)) (err m : String),
      (∀ f ∈ fs, ∃ m2, f = FactoryOutcome.invalid m2) →
      fs.getLast? = some (FactoryOutcome.invalid m) →
      createSourceAux err fs = Except.ok (CreateResult.noProducer m) := by
  intro fs
  induction fs with
  | nil =>
    intro err m _ hl
    simp at hl
  | cons f fs ih =>
    intro err m h hl
    obtain ⟨m0, rfl⟩ := h f (List.mem_cons_self f fs)
    cases fs with
    | nil =>
      simp only [List.getLast?_singleton, Option.some.injEq] at hl
      obtain rfl : m0 = m := by
        injection hl with hmm
      rfl
    | cons g gs =>
      have hl2 : (g :: gs).getLast? = some (FactoryOutcome.invalid m) := by
        rw [List.getLast?_cons_cons] at hl
        exact hl
      exact ih m0 m (fun x hx => h x (List.mem_cons_of_mem _ hx)) hl2

/-- Claim C1: `ProducerRegistry.createSource` walks the factory list
in registration order; the first factory whose `initialise` succeeds
has its producer returned immediately and the factories after it are
never consulted (the result does not depend on them); an
`InvalidProducerError` records its message and moves on to the next
factory; any other error propagates to the caller at once; and when
every factory fails with an `InvalidProducerError`, the registry
returns null carrying the last recorded message. -/
theorem registry_fallback_policy {α : Type} :
    (∀ (pre post : List (FactoryOutcome α)) (p : α),
        (∀ f ∈ pre, ∃ m, f = FactoryOutcome.invalid m) →
        createSource (pre ++ FactoryOutcome.ok p :: post) =
          Except.ok (CreateResult.created p)) ∧
    (∀ (pre post : List (FactoryOutcome α)) (m : String),
        (∀ f ∈ pre, ∃ m2, f = FactoryOutcome.invalid m2) →
        createSource (pre ++ FactoryOutcome.fatal m :: post) = Except.error m) ∧
    (∀ (fs : List (FactoryOutcome α)) (m : String),
        (∀ f ∈ fs, ∃ m2, f = FactoryOutcome.invalid m2) →
        fs.getLast? = some (FactoryOutcome.invalid m) →
        createSource fs = Except.ok (CreateResult.noProducer m)) := by
  refine ⟨?_, ?_, ?_⟩
  · intro pre post p h
    obtain ⟨err2, h2⟩ := createSourceAux_skip pre h "" (FactoryOutcome.ok p :: post)
    simp only [createSource]
    rw [h2]
    rfl
  · intro pre post m h
    obtain ⟨err2, h2⟩ := createSourceAux_skip pre h "" (FactoryOutcome.fatal m :: post)
    simp only [createSource]
    rw [h2]
    rfl
  · intro fs m h hl
    exact createSourceAux_all_invalid fs "" m h hl

/-- Witness for `registry_fallback_policy` over concrete factory
lists: success after one unrecognised factory, a fatal error hiding a
later healthy factory, and an all-unrecognised list yielding null with
the last message. -/
theorem registry_fallback_policy_witness :
    createSource ([FactoryOutcome.invalid "no"] ++ FactoryOutcome.ok (42 : Nat) :: []) =
      Except.ok (CreateResult.created 42) ∧
    createSource ([FactoryOutcome.invalid "no"] ++
        FactoryOutcome.fatal "boom" :: [FactoryOutcome.ok (7 : Nat)]) =
      Except.error "boom" ∧
    createSource [FactoryOutcome.invalid "a",
        (FactoryOutcome.invalid "b" : FactoryOutcome Nat)] =
      Except.ok (CreateResult.noProducer "b") := by
  refine ⟨?_, ?_, ?_⟩
  · exact registry_fallback_policy.1 [FactoryOutcome.invalid "no"] [] 42
      (fun f hf => by rw [List.mem_singleton.mp hf]; exact ⟨"no", rfl⟩)
  · exact registry_fallback_policy.2.1 [FactoryOutcome.invalid "no"]
      [FactoryOutcome.ok 7] "boom"
      (fun f hf => by rw [List.mem_singleton.mp hf]; exact ⟨"no", rfl⟩)
  · exact registry_fallback_policy.2.2
      [FactoryOutcome.invalid "a", FactoryOutcome.invalid "b"] "b"
      (fun f hf => by
        rcases List.mem_cons.mp hf with rfl | hf2
        · exact ⟨"a", rfl⟩
        · rw [List.mem_singleton.mp hf2]
          exact ⟨"b", rfl⟩)
      (by decide)

lemma discoverStep_eq_audio (st : DiscoveryState) (s : StreamInfo)
    (h : s.codecType = "audio" ∧ st.audioStreams.length < numAudChannels) :
    discoverStep st s =
      { st with
        audioStreams := st.audioStreams ++ [s]
        audioIndexes := st.audioIndexes ++ [s.index]
        decoderKeys := st.decoderKeys ++ [s.index]
        discards := st.discards ++ [(s.index, "default")] } := by
  simp only [discoverStep]
  rw [if_pos h]

lemma discoverStep_eq_video (st : DiscoveryState) (s : StreamInfo)
    (h1 : ¬(s.codecType = "audio" ∧ st.audioStreams.length < numAudChannels))
    (h2 : s.codecType = "video" ∧ st.videoStreams.length < numVidChannels) :
    discoverStep st s =
      { st with
        videoStreams := st.videoStreams ++ [s]
        videoIndexes := st.videoIndexes ++ [s.index]
        decoderKeys := st.decoderKeys ++ [s.index]
        discards := st.discards ++ [(s.index, "default")] } := by
  simp only [discoverStep]
  rw [if_neg h1, if_pos h2]

lemma discoverStep_eq_skip (st : DiscoveryState) (s : StreamInfo)
    (h1 : ¬(s.codecType = "audio" ∧ st.audioStreams.length < numAudChannels))
    (h2 : ¬(s.codecType = "video" ∧ st.videoStreams.length < numVidChannels)) :
    discoverStep st s = { st with discards := st.discards ++ [(s.index, "all")] } := by
  simp only [discoverStep]
  rw [if_neg h1, if_neg h2]

lemma discover_foldl_audio_le (ss : List StreamInfo) :
    ∀ st : DiscoveryState, st.audioStreams.length ≤ numAudChannels →
      (ss.foldl discoverStep st).audioStreams.length ≤ numAudChannels := by
  induction ss with
  | nil =>
    intro st h
    simpa using h
  | cons s rest ih =>
    intro st h
    rw [List.foldl_cons]
    apply ih
    by_cases h1 : s.codecType = "audio" ∧ st.audioStreams.length < numAudChannels
    · rw [discoverStep_eq_audio st s h1]
      simp only [List.length_append, List.length_singleton]
      omega
    · by_cases h2 : s.codecType = "video" ∧ st.videoStreams.length < numVidChannels
      · rw [discoverStep_eq_video st s h1 h2]
        exact h
      · rw [discoverStep_eq_skip st s h1 h2]
        exact h

lemma discover_foldl_video_le (ss : List StreamInfo) :
    ∀ st : DiscoveryState, st.videoStreams.length ≤ numVidChannels →
      (ss.foldl discoverStep st).videoStreams.length ≤ numVidChannels := by
  induction ss with
  | nil =>
    intro st h
    simpa using h
  | cons s rest ih =>
    intro st h
    rw [List.foldl_cons]
    apply ih
    by_cases h1 : s.codecType = "audio" ∧ st.audioStreams.length < numAudChannels
    · rw [discoverStep_eq_audio st s h1]
      exact h
    · by_cases h2 : s.codecType = "video" ∧ st.videoStreams.length < numVidChannels
      · rw [discoverStep_eq_video st s h1 h2]
        simp only [List.length_append, List.length_singleton]
        omega
      · rw [discoverStep_eq_skip st s h1 h2]
        exact h

lemma discoverStep_video_mono (st : DiscoveryState) (s : StreamInfo) :
    st.videoStreams.length ≤ (discoverStep st s).videoStreams.length := by
  by_cases h1 : s.codecType = "audio" ∧ st.audioStreams.length < numAudChannels
  · rw [discoverStep_eq_audio st s h1]
  · by_cases h2 : s.codecType = "video" ∧ st.videoStreams.length < numVidChannels
    · rw [discoverStep_eq_video st s h1 h2]
      simp only [List.length_append, List.length_singleton]
      omega
    · rw [discoverStep_eq_skip st s h1 h2]

lemma discover_foldl_video_mono (ss : List StreamInfo) :
    ∀ st : DiscoveryState,
      st.videoStreams.length ≤ (ss.foldl discoverStep st).videoStreams.length := by
  induction ss with
  | nil =>
    intro st
    simp
  | cons s rest ih =>
    intro st
    rw [List.foldl_cons]
    refine le_trans ?_ (ih (discoverStep st s))
    by_cases h1 : s.codecType = "audio" ∧ st.audioStreams.length < numAudChannels
    · rw [discoverStep_eq_audio st s h1]
    · by_cases h2 : s.codecType = "video" ∧ st.videoStreams.length < numVidChannels
      · rw [discoverStep_eq_video st s h1 h2]
        simp only [List.length_append, List.length_singleton]
        omega
      · rw [discoverStep_eq_skip st s h1 h2]

lemma discover_foldl_video_present (ss : List StreamInfo) :
    ∀ st : DiscoveryState, (∃ s ∈ ss, s.codecType = "video") →
      1 ≤ (ss.foldl discoverStep st).videoStreams.length := by
  induction ss with
  | nil =>
    intro st h
    simp at h
  | cons s rest ih =>
    intro st h
    rw [List.foldl_cons]
    rcases h with ⟨w, hw, hwv⟩
    rcases List.mem_cons.mp hw with rfl | hwrest
    · by_cases h1 : w.codecType = "audio" ∧ st.audioStreams.length < numAudChannels
      · rw [hwv] at h1
        simp at h1
      · by_cases h2 : w.codecType = "video" ∧ st.videoStreams.length < numVidChannels
        · refine le_trans ?_ (discover_foldl_video_mono rest (discoverStep st w))
          rw [discoverStep_eq_video st w h1 h2]
          simp only [List.length_append, List.length_singleton]
          omega
        · push_neg at h2
          have hge := h2 hwv
          refine le_trans (le_trans ?_ (discoverStep_video_mono st w))
            (discover_foldl_video_mono rest (discoverStep st w))
          simp only [numVidChannels] at hge
          omega
    · exact ih (discoverStep st s) ⟨w, hwrest, hwv⟩

lemma discover_foldl_decoder_count (ss : List StreamInfo) :
    ∀ st : DiscoveryState,
      (ss.foldl discoverStep st).decoderKeys.length
          + st.audioStreams.length + st.videoStreams.length =
        st.decoderKeys.length + (ss.foldl discoverStep st).audioStreams.length
          + (ss.foldl discoverStep st).videoStreams.length := by
  induction ss with
  | nil =>
    intro st
    simp
  | cons s rest ih =>
    intro st
    rw [List.foldl_cons]
    have hrec := ih (discoverStep st s)
    by_cases h1 : s.codecType = "audio" ∧ st.audioStreams.length < numAudChannels
    · rw [discoverStep_eq_audio st s h1] at hrec ⊢
      simp only [List.length_append, List.length_singleton] at hrec ⊢
      omega
    · by_cases h2 : s.codecType = "video" ∧ st.videoStreams.length < numVidChannels
      · rw [discoverStep_eq_video st s h1 h2] at hrec ⊢
        simp only [List.length_append, List.length_singleton] at hrec ⊢
        omega
      · rw [discoverStep_eq_skip st s h1 h2] at hrec ⊢
        simp only at hrec ⊢
        omega

lemma discover_foldl_discards_len (ss : List StreamInfo) :
    ∀ st : DiscoveryState,
      (ss.foldl discoverStep st).discards.length = st.discards.length + ss.length := by
  induction ss with
  | nil =>
    intro st
    simp
  | cons s rest ih =>
    intro st
    rw [List.foldl_cons]
    have hrec := ih (discoverStep st s)
    by_cases h1 : s.codecType = "audio" ∧ st.audioStreams.length < numAudChannels
    · rw [discoverStep_eq_audio st s h1] at hrec ⊢
      simp only [List.length_append, List.length_singleton, List.length_cons, List.length_nil] at hrec ⊢
      omega
    · by_cases h2 : s.codecType = "video" ∧ st.videoStreams.length < numVidChannels
      · rw [discoverStep_eq_video st s h1 h2] at hrec ⊢
        simp only [List.length_append, List.length_singleton, List.length_cons, List.length_nil] at hrec ⊢
        omega
      · rw [discoverStep_eq_skip st s h1 h2] at hrec ⊢
        simp only [List.length_append, List.length_singleton, List.length_cons, List.length_nil] at hrec ⊢
        omega

lemma discover_foldl_default_count (ss : List StreamInfo) :
    ∀ st : DiscoveryState,
      ((ss.foldl discoverStep st).discards.filter fun d => decide (d.2 = "default")).length
          + st.audioStreams.length + st.videoStreams.length =
        (st.discards.filter fun d => decide (d.2 = "default")).length
          + (ss.foldl discoverStep st).audioStreams.length
          + (ss.foldl discoverStep st).videoStreams.length := by
  induction ss with
  | nil =>
    intro st
    simp
  | cons s rest ih =>
    intro st
    rw [List.foldl_cons]
    have hrec := ih (discoverStep st s)
    by_cases h1 : s.codecType = "audio" ∧ st.audioStreams.length < numAudChannels
    · rw [discoverStep_eq_audio st s h1] at hrec ⊢
      simp only [List.filter_append, List.length_append, List.length_singleton,
        List.filter_cons, List.filter_nil, decide_eq_true_eq] at hrec ⊢
      simp at hrec
      omega
    · by_cases h2 : s.codecType = "video" ∧ st.videoStreams.length < numVidChannels
      · rw [discoverStep_eq_video st s h1 h2] at hrec ⊢
        simp only [List.filter_append, List.length_append, List.length_singleton,
          List.filter_cons, List.filter_nil, decide_eq_true_eq] at hrec ⊢
        simp at hrec
        omega
      · rw [discoverStep_eq_skip st s h1 h2] at hrec ⊢
        simp only [List.filter_append, List.length_append,
          List.filter_cons, List.filter_nil, decide_eq_true_eq] at hrec ⊢
        simp at hrec
        omega

lemma discover_foldl_marked_count (ss : List StreamInfo) :
    ∀ st : DiscoveryState,
      ((ss.foldl discoverStep st).discards.filter fun d => decide (d.2 = "default")).length
          + ((ss.foldl discoverStep st).discards.filter fun d => decide (d.2 = "all")).length =
        (st.discards.filter fun d => decide (d.2 = "default")).length
          + (st.discards.filter fun d => decide (d.2 = "all")).length + ss.length := by
  induction ss with
  | nil =>
    intro st
    simp
  | cons s rest ih =>
    intro st
    rw [List.foldl_cons]
    have hrec := ih (discoverStep st s)
    by_cases h1 : s.codecType = "audio" ∧ st.audioStreams.length < numAudChannels
    · rw [discoverStep_eq_audio st s h1] at hrec ⊢
      simp only [List.filter_append, List.length_append, List.length_cons,
        List.filter_cons, List.filter_nil, decide_eq_true_eq] at hrec ⊢
      simp at hrec
      omega
    · by_cases h2 : s.codecType = "video" ∧ st.videoStreams.length < numVidChannels
      · rw [discoverStep_eq_video st s h1 h2] at hrec ⊢
        simp only [List.filter_append, List.length_append, List.length_cons,
          List.filter_cons, List.filter_nil, decide_eq_true_eq] at hrec ⊢
        simp at hrec
        omega
      · rw [discoverStep_eq_skip st s h1 h2] at hrec ⊢
        simp only [List.filter_append, List.length_append, List.length_cons,
          List.filter_cons, List.filter_nil, decide_eq_true_eq] at hrec ⊢
        simp at hrec
        omega

/-- Claim C7: stream discovery selects at most 8 audio streams and at
most one video stream - exactly one when the source declares any
video stream - marks exactly the selected streams with discard
`default` and every other stream with discard `all`, and performs one
decoder insertion per selected stream, so the number of decoders is
bounded by 9 regardless of how many streams the source declares. -/
theorem stream_discovery_caps (streams : List StreamInfo) :
    (discover streams).audioStreams.length ≤ 8 ∧
    (discover streams).videoStreams.length ≤ 1 ∧
    ((∃ s ∈ streams, s.codecType = "video") →
      (discover streams).videoStreams.length = 1) ∧
    (discover streams).decoderKeys.length =
      (discover streams).audioStreams.length +
        (discover streams).videoStreams.length ∧
    (discover streams).decoderKeys.length ≤ 9 ∧
    (discover streams).discards.length = streams.length ∧
    ((discover streams).discards.filter fun d => decide (d.2 = "default")).length =
      (discover streams).audioStreams.length +
        (discover streams).videoStreams.length ∧
    ((discover streams).discards.filter fun d => decide (d.2 = "all")).length =
      streams.length -
        ((discover streams).audioStreams.length +
          (discover streams).videoStreams.length) := by
  have ha := discover_foldl_audio_le streams emptyDiscovery
    (by simp [emptyDiscovery, numAudChannels])
  have hv := discover_foldl_video_le streams emptyDiscovery
    (by simp [emptyDiscovery, numVidChannels])
  have hd := discover_foldl_decoder_count streams emptyDiscovery
  have hlen := discover_foldl_discards_len streams emptyDiscovery
  have hdef := discover_foldl_default_count streams emptyDiscovery
  have hmk := discover_foldl_marked_count streams emptyDiscovery
  simp only [emptyDiscovery, List.length_nil, List.filter_nil, Nat.add_zero,
    Nat.zero_add] at ha hv hd hlen hdef hmk
  simp only [discover, emptyDiscovery, numAudChannels, numVidChannels] at ha hv hd hlen hdef hmk ⊢
  refine ⟨ha, hv, ?_, by omega, by omega, hlen, by omega, by omega⟩
  intro hex
  have hp := discover_foldl_video_present streams emptyDiscovery hex
  simp only [emptyDiscovery] at hp
  omega

/-- A mono audio stream used by concrete witnesses. -/
def demoAud : StreamInfo :=
  { index := 0, codecType := "audio", channel_layout := "mono",
    sample_rate := 48000, format := "s32", width := 0, height := 0,
    time_base := (1, 48000) }

/-- A video stream used by concrete witnesses. -/
def demoVid : StreamInfo :=
  { index := 1, codecType := "video", channel_layout := "",
    sample_rate := 0, format := "yuv422p", width := 1920, height := 1080,
    time_base := (1, 25) }

/-- A second video stream (beyond the cap) used by concrete
witnesses. -/
def demoVid2 : StreamInfo :=
  { index := 2, codecType := "video", channel_layout := "",
    sample_rate := 0, format := "yuv420p", width := 1920, height := 1080,
    time_base := (1, 25) }

/-- Witness for `stream_discovery_caps` on a concrete three-stream
source with two video streams: exactly one video stream is selected
and the decoder count stays within the bound. -/
theorem stream_discovery_caps_witness :
    (discover [demoAud, demoVid, demoVid2]).videoStreams.length = 1 ∧
    (discover [demoAud, demoVid, demoVid2]).decoderKeys.length ≤ 9 :=
  ⟨(stream_discovery_caps [demoAud, demoVid, demoVid2]).2.2.1
      ⟨demoVid, by simp, rfl⟩,
    (stream_discovery_caps [demoAud, demoVid, demoVid2]).2.2.2.2.1⟩

lemma audChanNames_nodup : audChanNames.Nodup := by
  decide

lemma audChanNames_drop_cons :
    ∀ i < 8, audChanNames.drop i =
      audChanNames.getD i "undefined" :: audChanNames.drop (i + 1) := by
  decide

lemma mkInParams_layouts_mono (astr : StreamInfo) :
    ∀ (ss : List StreamInfo) (i : Nat), i + ss.length ≤ 8 →
      (mkInParamsAux astr true i ss).map AudInputParam.channelLayout =
        (audChanNames.drop i).take ss.length := by
  intro ss
  induction ss with
  | nil =>
    intro i _
    simp [mkInParamsAux]
  | cons s rest ih =>
    intro i hle
    rw [mkInParamsAux]
    simp only [List.map_cons, if_true, List.length_cons]
    rw [audChanNames_drop_cons i (by simp at hle; omega), List.take_succ_cons]
    rw [ih (i + 1) (by simp at hle ⊢; omega)]

lemma mkInParams_layouts_nonmono (astr : StreamInfo) :
    ∀ (ss : List StreamInfo) (i : Nat) (q : AudInputParam),
      q ∈ mkInParamsAux astr false i ss →
      q.channelLayout = astr.channel_layout := by
  intro ss
  induction ss with
  | nil =>
    intro i q hq
    simp [mkInParamsAux] at hq
  | cons s rest ih =>
    intro i q hq
    rw [mkInParamsAux] at hq
    rcases List.mem_cons.mp hq with rfl | hq2
    · simp
    · exact ih (i + 1) q hq2

/-- Claim C8: with `N` selected audio streams (`1 ≤ N ≤ 8`) all tagged
`mono`, the audio filter graph assigns input `k` the `k`-th of the
fixed speaker positions FL, FR, FC, SL, SR, LFE, BL, BR (so all
assigned positions are distinct), and the merged output layout is the
fixed 8-channel `8c` at 48000 Hz `s32` regardless of `N`; when some
stream is not mono, every input keeps the first audio stream's channel
layout instead. -/
theorem audio_mono_layout_merge (a : StreamInfo) (rest : List StreamInfo)
    (hlen : (a :: rest).length ≤ 8) :
    (allMonoOf (a :: rest) = true →
      (buildAudioPath (a :: rest)).inputParams.map AudInputParam.channelLayout =
        audChanNames.take (a :: rest).length ∧
      ((buildAudioPath (a :: rest)).inputParams.map
          AudInputParam.channelLayout).Nodup) ∧
    (allMonoOf (a :: rest) = false →
      ∀ q ∈ (buildAudioPath (a :: rest)).inputParams,
        q.channelLayout = a.channel_layout) ∧
    (buildAudioPath (a :: rest)).outChannelLayout = "8c" ∧
    (buildAudioPath (a :: rest)).outSampleRate = 48000 ∧
    (buildAudioPath (a :: rest)).outSampleFormat = "s32" := by
  refine ⟨?_, ?_, rfl, rfl, rfl⟩
  · intro hmono
    have hmap : (buildAudioPath (a :: rest)).inputParams.map
        AudInputParam.channelLayout = audChanNames.take (a :: rest).length := by
      show (mkInParamsAux a (allMonoOf (a :: rest)) 0 (a :: rest)).map
        AudInputParam.channelLayout = audChanNames.take (a :: rest).length
      rw [hmono, mkInParams_layouts_mono a (a :: rest) 0 (by simpa using hlen),
        List.drop_zero]
    refine ⟨hmap, ?_⟩
    rw [hmap]
    exact List.Nodup.sublist (List.take_sublist _ _) audChanNames_nodup
  · intro hmono q hq
    have hq2 : q ∈ mkInParamsAux a (allMonoOf (a :: rest)) 0 (a :: rest) := hq
    rw [hmono] at hq2
    exact mkInParams_layouts_nonmono a (a :: rest) 0 q hq2

/-- A second mono audio stream used by concrete witnesses. -/
def demoAud2 : StreamInfo :=
  { index := 3, codecType := "audio", channel_layout := "mono",
    sample_rate := 48000, format := "s32", width := 0, height := 0,
    time_base := (1, 48000) }

/-- Witness for `audio_mono_layout_merge` on two concrete mono
streams: the layouts come out as FL and FR and the output layout is
`8c`. -/
theorem audio_mono_layout_merge_witness :
    (buildAudioPath [demoAud, demoAud2]).inputParams.map
        AudInputParam.channelLayout = ["FL", "FR"] ∧
    (buildAudioPath [demoAud, demoAud2]).outChannelLayout = "8c" := by
  have h := audio_mono_layout_merge demoAud [demoAud2] (by decide)
  refine ⟨?_, h.2.2.1⟩
  have h1 := (h.1 (by decide)).1
  rw [h1]
  rfl

lemma discover_foldl_no_video (ss : List StreamInfo) :
    ∀ st : DiscoveryState, (∀ s ∈ ss, s.codecType ≠ "video") →
      (ss.foldl discoverStep st).videoStreams = st.videoStreams := by
  induction ss with
  | nil =>
    intro st _
    rfl
  | cons s rest ih =>
    intro st h
    rw [List.foldl_cons, ih (discoverStep st s) (fun x hx => h x (List.mem_cons_of_mem _ hx))]
    by_cases h1 : s.codecType = "audio" ∧ st.audioStreams.length < numAudChannels
    · rw [discoverStep_eq_audio st s h1]
    · by_cases h2 : s.codecType = "video" ∧ st.videoStreams.length < numVidChannels
      · exact absurd h2.1 (h s (List.mem_cons_self s rest))
      · rw [discoverStep_eq_skip st s h1 h2]

lemma discover_foldl_no_audio (ss : List StreamInfo) :
    ∀ st : DiscoveryState, (∀ s ∈ ss, s.codecType ≠ "audio") →
      (ss.foldl discoverStep st).audioStreams = st.audioStreams := by
  induction ss with
  | nil =>
    intro st _
    rfl
  | cons s rest ih =>
    intro st h
    rw [List.foldl_cons, ih (discoverStep st s) (fun x hx => h x (List.mem_cons_of_mem _ hx))]
    by_cases h1 : s.codecType = "audio" ∧ st.audioStreams.length < numAudChannels
    · exact absurd h1.1 (h s (List.mem_cons_self s rest))
    · by_cases h2 : s.codecType = "video" ∧ st.videoStreams.length < numVidChannels
      · rw [discoverStep_eq_video st s h1 h2]
      · rw [discoverStep_eq_skip st s h1 h2]

lemma selectReader_unsupported (fmt : String) (w h : Nat)
    (hnat : fmt ∉ nativeFormats)
    (hyuv : strIncludes fmt "yuv" = false)
    (hrgb : strIncludes fmt "rgb" = false) :
    selectReader fmt w h = Except.error (unsupportedMsg fmt) := by
  simp only [nativeFormats, List.mem_cons, List.not_mem_nil, or_false, not_or] at hnat
  obtain ⟨h1, h2, h3, h4, h5⟩ := hnat
  have hy : ¬ (strIncludes fmt "yuv" = true) := by
    rw [hyuv]
    simp
  have hr : ¬ (strIncludes fmt "rgb" = true) := by
    rw [hrgb]
    simp
  simp only [selectReader]
  rw [if_neg h1, if_neg h2, if_neg h3, if_neg h4, if_neg h5, if_neg hy, if_neg hr]

lemma initialise_unsupported (src : SourceModel) (v : StreamInfo)
    (tl : List StreamInfo) (hopen : src.openOk = true)
    (hvid : (discover src.streams).videoStreams = v :: tl)
    (hnat : v.format ∉ nativeFormats)
    (hyuv : strIncludes v.format "yuv" = false)
    (hrgb : strIncludes v.format "rgb" = false) :
    initialise src = Except.error (ProdError.fatal (unsupportedMsg v.format)) := by
  simp only [initialise]
  rw [if_pos hopen, hvid]
  simp only [buildVideoPath, selectReader_unsupported v.format v.width v.height hnat hyuv hrgb]

lemma initialise_no_video (src : SourceModel) (hopen : src.openOk = true)
    (hvid : (discover src.streams).videoStreams = []) :
    initialise src = Except.error (ProdError.fatal typeErrorMsg) := by
  simp only [initialise]
  rw [if_pos hopen, hvid]
  simp only [buildVideoPath]

lemma ffmpegFactoryOutcome_fatal (src : SourceModel) (m : String)
    (h : initialise src = Except.error (ProdError.fatal m)) :
    ffmpegFactoryOutcome src = FactoryOutcome.fatal m := by
  simp only [ffmpegFactoryOutcome, h]

lemma createSource_fatal_propagation {α : Type}
    (pre post : List (FactoryOutcome α)) (m : String)
    (hpre : ∀ f ∈ pre, ∃ m2, f = FactoryOutcome.invalid m2) :
    createSource (pre ++ FactoryOutcome.fatal m :: post) = Except.error m := by
  obtain ⟨err2, h2⟩ := createSourceAux_skip pre hpre "" (FactoryOutcome.fatal m :: post)
  simp only [createSource]
  rw [h2]
  rfl

/-- Claim C3: a pixel format in the fixed native set selects the
matching GPU reader directly and leaves the filter output format
unchanged; a non-native format containing `yuv` selects the
yuv422p10 reader and forces the filter output to `yuv422p10le`; one
containing `rgb` selects the rgba8 reader and forces `rgba`; anything
outside both families makes `initialise` throw the
unsupported-format error, which is not an `InvalidProducerError`, so
the registry propagates it to the caller instead of trying the next
factory. -/
theorem pixel_format_policy :
    (∀ w h : Nat,
      selectReader "yuv422p" w h =
        Except.ok ⟨VidReader.yuv422p8, "yuv422p", w, h⟩ ∧
      selectReader "yuv422p10le" w h =
        Except.ok ⟨VidReader.yuv422p10, "yuv422p10le", w, h⟩ ∧
      selectReader "v210" w h = Except.ok ⟨VidReader.v210, "v210", w, h⟩ ∧
      selectReader "rgba" w h = Except.ok ⟨VidReader.rgba8, "rgba", w, h⟩ ∧
      selectReader "bgra" w h = Except.ok ⟨VidReader.bgra8, "bgra", w, h⟩) ∧
    (∀ (fmt : String) (w h : Nat), fmt ∉ nativeFormats →
      strIncludes fmt "yuv" = true →
      selectReader fmt w h =
        Except.ok ⟨VidReader.yuv422p10, "yuv422p10le", w, h⟩) ∧
    (∀ (fmt : String) (w h : Nat), fmt ∉ nativeFormats →
      strIncludes fmt "yuv" = false → strIncludes fmt "rgb" = true →
      selectReader fmt w h = Except.ok ⟨VidReader.rgba8, "rgba", w, h⟩) ∧
    (∀ (fmt : String) (w h : Nat), fmt ∉ nativeFormats →
      strIncludes fmt "yuv" = false → strIncludes fmt "rgb" = false →
      selectReader fmt w h = Except.error (unsupportedMsg fmt)) ∧
    (∀ (src : SourceModel) (v : StreamInfo) (tl : List StreamInfo)
        (pre post : List (FactoryOutcome ProducerCfg)),
      src.openOk = true →
      (discover src.streams).videoStreams = v :: tl →
      v.format ∉ nativeFormats →
      strIncludes v.format "yuv" = false → strIncludes v.format "rgb" = false →
      (∀ f ∈ pre, ∃ m, f = FactoryOutcome.invalid m) →
      createSource (pre ++ ffmpegFactoryOutcome src :: post) =
        Except.error (unsupportedMsg v.format)) := by
  refine ⟨fun w h => ⟨rfl, rfl, rfl, rfl, rfl⟩, ?_, ?_, ?_, ?_⟩
  · intro fmt w h hnat hyuv
    simp only [nativeFormats, List.mem_cons, List.not_mem_nil, or_false,
      not_or] at hnat
    obtain ⟨h1, h2, h3, h4, h5⟩ := hnat
    simp only [selectReader]
    rw [if_neg h1, if_neg h2, if_neg h3, if_neg h4, if_neg h5, if_pos hyuv]
  · intro fmt w h hnat hyuv hrgb
    simp only [nativeFormats, List.mem_cons, List.not_mem_nil, or_false,
      not_or] at hnat
    obtain ⟨h1, h2, h3, h4, h5⟩ := hnat
    have hy : ¬ (strIncludes fmt "yuv" = true) := by
      rw [hyuv]
      simp
    simp only [selectReader]
    rw [if_neg h1, if_neg h2, if_neg h3, if_neg h4, if_neg h5, if_neg hy,
      if_pos hrgb]
  · intro fmt w h hnat hyuv hrgb
    exact selectReader_unsupported fmt w h hnat hyuv hrgb
  · intro src v tl pre post hopen hvid hnat hyuv hrgb hpre
    rw [ffmpegFactoryOutcome_fatal src (unsupportedMsg v.format)
      (initialise_unsupported src v tl hopen hvid hnat hyuv hrgb)]
    exact createSource_fatal_propagation pre post (unsupportedMsg v.format) hpre

/-- A video stream with a pixel format outside both supported
families, used by concrete witnesses. -/
def demoGray : StreamInfo :=
  { index := 0, codecType := "video", channel_layout := "",
    sample_rate := 0, format := "gray8", width := 64, height := 64,
    time_base := (1, 25) }

/-- A source whose only stream is the unsupported-format video
stream. -/
def demoSrcBadFormat : SourceModel :=
  { openOk := true, streams := [demoGray] }

/-- Witness for `pixel_format_policy` at concrete formats: `yuv420p`
falls back to the yuv422p10 reader, `rgb24` to the rgba8 reader,
`gray8` fails, and a one-factory registry run propagates the fatal
unsupported-format error. -/
theorem pixel_format_policy_witness :
    selectReader "yuv420p" 64 64 =
      Except.ok ⟨VidReader.yuv422p10, "yuv422p10le", 64, 64⟩ ∧
    selectReader "rgb24" 64 64 = Except.ok ⟨VidReader.rgba8, "rgba", 64, 64⟩ ∧
    selectReader "gray8" 64 64 = Except.error (unsupportedMsg "gray8") ∧
    createSource ([FactoryOutcome.invalid "device absent"] ++
        ffmpegFactoryOutcome demoSrcBadFormat :: []) =
      Except.error (unsupportedMsg "gray8") := by
  refine ⟨?_, ?_, ?_, ?_⟩
  · exact pixel_format_policy.2.1 "yuv420p" 64 64 (by decide) (by decide)
  · exact pixel_format_policy.2.2.1 "rgb24" 64 64 (by decide) (by decide)
      (by decide)
  · exact pixel_format_policy.2.2.2.1 "gray8" 64 64 (by decide) (by decide)
      (by decide)
  · exact pixel_format_policy.2.2.2.2 demoSrcBadFormat demoGray []
      [FactoryOutcome.invalid "device absent"] [] rfl (by decide) (by decide)
      (by decide) (by decide)
      (fun f hf => by
        rw [List.mem_singleton.mp hf]
        exact ⟨"device absent", rfl⟩)

/-- Claim C9: a source that opens successfully but has no video
stream makes `initialise` fail on the `undefined` element
`videoStreams[0]` - the JavaScript field access raises a `TypeError`,
which is not an `InvalidProducerError` - so the registry propagates
the error to the caller instead of falling back to the next
factory. -/
theorem no_video_stream_fatal (src : SourceModel)
    (pre post : List (FactoryOutcome ProducerCfg))
    (hopen : src.openOk = true)
    (hnovid : ∀ s ∈ src.streams, s.codecType ≠ "video")
    (hpre : ∀ f ∈ pre, ∃ m, f = FactoryOutcome.invalid m) :
    initialise src = Except.error (ProdError.fatal typeErrorMsg) ∧
    ffmpegFactoryOutcome src = FactoryOutcome.fatal typeErrorMsg ∧
    createSource (pre ++ ffmpegFactoryOutcome src :: post) =
      Except.error typeErrorMsg := by
  have hvid : (discover src.streams).videoStreams = [] := by
    have h := discover_foldl_no_video src.streams emptyDiscovery hnovid
    simpa [discover, emptyDiscovery] using h
  have hini := initialise_no_video src hopen hvid
  have hout := ffmpegFactoryOutcome_fatal src typeErrorMsg hini
  refine ⟨hini, hout, ?_⟩
  rw [hout]
  exact createSource_fatal_propagation pre post typeErrorMsg hpre

/-- A source whose only stream is one mono audio stream. -/
def demoSrcNoVideo : SourceModel :=
  { openOk := true, streams := [demoAud] }

/-- Witness for `no_video_stream_fatal` on a concrete audio-only
source with an empty registry prefix. -/
theorem no_video_stream_fatal_witness :
    initialise demoSrcNoVideo = Except.error (ProdError.fatal typeErrorMsg) ∧
    createSource ([] ++ ffmpegFactoryOutcome demoSrcNoVideo :: []) =
      Except.error typeErrorMsg := by
  have h := no_video_stream_fatal demoSrcNoVideo [] [] rfl
    (fun s hs => by
      rw [List.mem_singleton.mp hs]
      decide)
    (fun f hf => absurd hf (List.not_mem_nil f))
  exact ⟨h.1, h.2.2⟩

/-- Claim C5 (amended): for a source with zero audio streams the
audio leg is built from the synthesized silent frame template at the
fixed output layout (8 channels, `s32`, 48000 Hz, 1024-sample chunks)
run through the `asetpts` pass-through graph, and the `silence`
generator emits that template on every call; the generator does not
consult the running flag, so `release()` does not stop this audio
leg. -/
theorem silent_audio_leg (streams : List StreamInfo)
    (hnoaud : ∀ s ∈ streams, s.codecType ≠ "audio") :
    (buildAudioPath (discover streams).audioStreams).silentFrame =
      some silentFrameSpec ∧
    silentFrameSpec.channels = 8 ∧
    silentFrameSpec.format = "s32" ∧
    silentFrameSpec.sample_rate = 48000 ∧
    silentFrameSpec.nb_samples = 1024 ∧
    silentFrameSpec.channel_layout = "8c" ∧
    (buildAudioPath (discover streams).audioStreams).filterSpec =
      "[in0:a] asetpts=N/SR/TB [out0:a]" ∧
    (buildAudioPath (discover streams).audioStreams).outChannelLayout = "8c" ∧
    (∀ (s : ProducerState) (sf : FrameSpec),
      silence s sf = [{ name := "in0:a", frames := [sf] }]) ∧
    silence (release { running := true, paused := false, hasDemuxer := true })
        silentFrameSpec = [{ name := "in0:a", frames := [silentFrameSpec] }] := by
  have haud : (discover streams).audioStreams = [] := by
    have h := discover_foldl_no_audio streams emptyDiscovery hnoaud
    simpa [discover, emptyDiscovery] using h
  rw [haud]
  exact ⟨rfl, rfl, rfl, rfl, rfl, rfl, rfl, rfl, fun s sf => rfl, rfl⟩

/-- Counterexample to claim C5 as stated ("until release() is called,
after which no further audio frames are produced"): after `release()`
the `silence` generator still yields the silent batch - it never
consults the running flag. -/
theorem silent_audio_leg_cex :
    (release { running := true, paused := false, hasDemuxer := true }).running
      = false ∧
    silence (release { running := true, paused := false, hasDemuxer := true })
        silentFrameSpec ≠ [] ∧
    silence (release { running := true, paused := false, hasDemuxer := true })
        silentFrameSpec = [{ name := "in0:a", frames := [silentFrameSpec] }] := by
  refine ⟨rfl, ?_, rfl⟩
  simp [silence]

/-- Witness for `silent_audio_leg` on a concrete video-only source. -/
theorem silent_audio_leg_witness :
    (buildAudioPath (discover [demoVid]).audioStreams).silentFrame =
      some silentFrameSpec ∧
    silence (release { running := true, paused := false, hasDemuxer := true })
        silentFrameSpec = [{ name := "in0:a", frames := [silentFrameSpec] }] := by
  have h := silent_audio_leg [demoVid]
    (fun s hs => by
      rw [List.mem_singleton.mp hs]
      decide)
  exact ⟨h.1, h.2.2.2.2.2.2.2.2.2⟩

/-- Claim C6 (amended): `release()` is idempotent and only sets the
running flag false, leaving the other producer flags untouched; the
demux generator then observes the cleared flag on its next call,
drops the demuxer and emits the terminal end-of-stream marker, so the
legs fed from the demuxed packet stream receive no further batches;
the synthesized-silence audio leg of a zero-audio-stream source,
however, does not consult the running flag and is not stopped. -/
theorem release_semantics :
    (∀ s : ProducerState, release s = { s with running := false }) ∧
    (∀ s : ProducerState, release (release s) = release s) ∧
    (∀ s : ProducerState, (release s).paused = s.paused ∧
      (release s).hasDemuxer = s.hasDemuxer) ∧
    (∀ (s : ProducerState) (cfg : DemuxCfg) (src : List Packet),
      demuxRead (release s) cfg src =
        (DemuxResult.eos, src, { release s with hasDemuxer := false })) := by
  refine ⟨fun s => rfl, fun s => rfl, fun s => ⟨rfl, rfl⟩, ?_⟩
  intro s cfg src
  simp [demuxRead, release]

/-- Counterexample to claim C6 as stated ("once release() has been
called, no further buffers are produced on either output leg"): the
audio leg of a zero-audio-stream source is the `silence` generator
pipe, and `silence` still produces its batch in a released state. -/
theorem release_no_more_output_cex :
    (buildAudioPath []).silentFrame = some silentFrameSpec ∧
    silence (release { running := true, paused := true, hasDemuxer := false })
        silentFrameSpec ≠ [] := by
  refine ⟨rfl, ?_⟩
  simp [silence]

/-- Claim C4 (amended): per accepted input buffer the deinterlacer
appends zero, one or two buffers to the output list; the valve
forwards exactly those buffers when two or more were appended and
forwards nothing otherwise - a lone appended buffer is dropped, not
forwarded - the input buffer is released after processing, and on
end-of-stream the deinterlacer state is released and the marker
forwarded. -/
theorem vidDeint_forwarding (dests : List CLBuf) (input : CLBuf)
    (hle : dests.length ≤ 2) :
    ((vidDeint dests (some input)).forwarded = dests ∨
      (vidDeint dests (some input)).forwarded = []) ∧
    (dests.length = 2 → (vidDeint dests (some input)).forwarded = dests) ∧
    (dests.length ≤ 1 → (vidDeint dests (some input)).forwarded = []) ∧
    (vidDeint dests (some input)).forwarded.length ≤ 2 ∧
    (vidDeint dests (some input)).inputReleased = true ∧
    (vidDeint dests none).yadifReleased = true ∧
    (vidDeint dests none).endForwarded = true ∧
    (vidDeint dests none).forwarded = [] := by
  refine ⟨?_, ?_, ?_, ?_, rfl, rfl, rfl, rfl⟩
  · by_cases h : dests.length > 1
    · left
      simp [vidDeint, h]
    · right
      simp [vidDeint, h]
  · intro h2
    simp [vidDeint, h2]
  · intro h1
    have hng : ¬ (dests.length > 1) := by omega
    simp [vidDeint, hng]
  · by_cases h : dests.length > 1
    · simpa [vidDeint, h] using hle
    · simp [vidDeint, h]

/-- Counterexample to claim C4 as stated ("the stage forwards every
appended buffer downstream"): when the deinterlacer appends exactly
one buffer, `yadifDests.length > 1` fails and the valve emits `nil`,
dropping the buffer instead of forwarding it. -/
theorem vidDeint_forwarding_cex :
    (vidDeint [⟨0⟩] (some ⟨1⟩)).forwarded ≠ [(⟨0⟩ : CLBuf)] ∧
    (vidDeint [⟨0⟩] (some ⟨1⟩)).forwarded = [] := by
  refine ⟨?_, rfl⟩
  simp [vidDeint]

/-- Witness for `vidDeint_forwarding` with two appended buffers: both
are forwarded and the input is released. -/
theorem vidDeint_forwarding_witness :
    ((vidDeint [⟨3⟩, ⟨4⟩] (some ⟨5⟩)).forwarded = [⟨3⟩, ⟨4⟩] ∨
      (vidDeint [⟨3⟩, ⟨4⟩] (some ⟨5⟩)).forwarded = []) ∧
    (vidDeint [⟨3⟩, ⟨4⟩] (some ⟨5⟩)).inputReleased = true :=
  ⟨(vidDeint_forwarding [⟨3⟩, ⟨4⟩] ⟨5⟩ (by decide)).1,
    (vidDeint_forwarding [⟨3⟩, ⟨4⟩] ⟨5⟩ (by decide)).2.2.2.2.1⟩

end Phaneron
